import Mathlib

/-!
Shallow embedding of `portalocker/utils.py` (hugovk/portalocker): the
`Lock` acquire/release engine, the reentrant `RLock`, the
`BoundedSemaphore`, the `LockBase` context-manager wiring and the
`open_atomic` helper.  Machine state is passed explicitly, the
`current_time()` readings and the outcomes of the advisory-lock
primitive are supplied by an environment, and every operation returns
an event trace recording the externally visible filesystem actions
(open, lock attempt, sleep, truncate, unlock, close).
-/

namespace Portalocker

/-- Modelled from the spec: the raw advisory-lock primitive
(`portalocker.lock`, not under `src/`) either succeeds or fails with a
contention error that is distinguishable from other failures; the
contention error is abstracted as a numeric identifier. -/
inductive PrimResult where
  | ok : PrimResult
  | contention : ℕ → PrimResult
deriving DecidableEq

/-- Argument carried by a raised exception: nothing (`None` / no
argument), a captured contention error, or a message string. -/
inductive ExcArg where
  | noArg : ExcArg
  | contention : ℕ → ExcArg
  | msg : String → ExcArg
deriving DecidableEq

/-- Modelled from the spec: the exception classes of the missing
`portalocker/exceptions.py` — `LockException` (generic) and its
subclass `AlreadyLocked` — together with the Python built-in errors
raised by `assert` statements and by `os.rename` in the source. -/
inductive PyError where
  | lockException : ExcArg → PyError
  | alreadyLocked : ExcArg → PyError
  | assertionError : String → PyError
  | osError : String → PyError
deriving DecidableEq

/-- Externally visible actions performed by the engine, in order. -/
inductive Ev where
  | evOpen : String → ℕ → Ev
  | evLockAttempt : ℕ → PrimResult → Ev
  | evSleep : ℚ → Ev
  | evTruncate : ℕ → Ev
  | evUnlock : ℕ → Ev
  | evClose : ℕ → Ev
deriving DecidableEq

/-- Environment of one `Lock.acquire` call: the successive readings of
`current_time()` (index 0 is the reading used for `timeout_end`, index
`1 + i` the reading of the i-th loop-condition check), the outcome of
the n-th advisory-lock attempt, and the handle id returned by `open`. -/
structure Env where
  clock : ℕ → ℚ
  prim : ℕ → PrimResult
  handle : ℕ

/-- `DEFAULT_TIMEOUT = 5` from the source. -/
def DEFAULT_TIMEOUT : ℚ := 5

/-- `DEFAULT_CHECK_INTERVAL = 0.25` from the source. -/
def DEFAULT_CHECK_INTERVAL : ℚ := 1 / 4

/-- Modelled from the spec: lock-mode bitmask values of the missing
`portalocker/constants.py` (POSIX `LOCK_EX`). -/
def LOCK_EX : ℕ := 2

/-- Modelled from the spec: non-blocking flag (POSIX `LOCK_NB`). -/
def LOCK_NB : ℕ := 4

/-- `LOCK_METHOD = constants.LOCK_EX | constants.LOCK_NB`. -/
def LOCK_METHOD : ℕ := LOCK_EX ||| LOCK_NB

/-- The state of one `Lock` instance: the held handle (`self.fh`,
`none` when unlocked) plus the configuration stored by `__init__`.
The open mode is a list of characters, mirroring the Python string. -/
structure LockState where
  fh : Option ℕ
  filename : String
  mode : List Char
  truncate : Bool
  timeout : Option ℚ
  checkInterval : ℚ
  failWhenLocked : Bool
  flags : ℕ
deriving DecidableEq

/-- `mode.replace(c, d)` for a single-character pattern. -/
def replaceChar (m : List Char) (c d : Char) : List Char :=
  m.map fun x => if x = c then d else x

namespace Lock

/-- `Lock.__init__`: a mode containing a w is rewritten to the
append-compatible mode (every w replaced by a) and the deferred
`truncate` flag is set; no handle is held initially. -/
def init (filename : String) (mode : List Char) (timeout : Option ℚ)
    (checkInterval : ℚ) (failWhenLocked : Bool) (flags : ℕ) : LockState :=
  { fh := none
    filename := filename
    mode := if 'w' ∈ mode then replaceChar mode 'w' 'a' else mode
    truncate := ('w' ∈ mode : Bool)
    timeout := timeout
    checkInterval := checkInterval
    failWhenLocked := failWhenLocked
    flags := flags }

/-- Parameter resolution of `acquire`: an omitted argument falls back
to the instance default; a timeout that is still `None` becomes 0. -/
def resolveTimeout (callArg instArg : Option ℚ) : ℚ :=
  ((callArg <|> instArg).getD 0)

/-- The retry loop of `Lock.acquire` (`while timeout_end >
current_time()` with the try/except body), with explicit fuel;
`clockIdx` / `attemptIdx` index the clock readings and the lock
attempts, `lastExc` is the `exception` variable of the source.
Returns `none` only when the fuel runs out. -/
def acquireLoop (env : Env) (timeoutEnd checkInterval : ℚ)
    (failWhenLocked : Bool) (h : ℕ) :
    ℕ → ℕ → Option ℕ → ℕ → Option (Except PyError Unit × List Ev)
  | _, _, _, 0 => none
  | clockIdx, attemptIdx, lastExc, fuel + 1 =>
    if timeoutEnd > env.clock clockIdx then
      match env.prim attemptIdx with
      | PrimResult.ok => some (Except.ok (), [Ev.evLockAttempt h PrimResult.ok])
      | PrimResult.contention e =>
        if failWhenLocked then
          some (Except.error (PyError.alreadyLocked (ExcArg.contention e)),
            [Ev.evLockAttempt h (PrimResult.contention e), Ev.evClose h])
        else
          match acquireLoop env timeoutEnd checkInterval failWhenLocked h
              (clockIdx + 1) (attemptIdx + 1) (some e) fuel with
          | none => none
          | some (r, evs) =>
            some (r, Ev.evLockAttempt h (PrimResult.contention e) ::
              Ev.evSleep checkInterval :: evs)
    else
      some (Except.error (PyError.lockException
        (match lastExc with
         | some e => ExcArg.contention e
         | none => ExcArg.noArg)), [Ev.evClose h])

/-- `Lock.acquire`: resolve parameters (call argument, else instance
default, a still-absent timeout becoming 0), return the held handle if
any, otherwise open, run the retry loop, and on success truncate if
configured and store the handle.  On failure the instance state is
unchanged (`self.fh` is only assigned at the very end). -/
def acquire (st : LockState) (env : Env) (timeoutArg checkIntervalArg : Option ℚ)
    (failWhenLockedArg : Option Bool) (fuel : ℕ) :
    Option (LockState × Except PyError ℕ × List Ev) :=
  match st.fh with
  | some h => some (st, Except.ok h, [])
  | none =>
    match acquireLoop env (env.clock 0 + resolveTimeout timeoutArg st.timeout)
        (checkIntervalArg.getD st.checkInterval)
        (failWhenLockedArg.getD st.failWhenLocked) env.handle 1 0 none fuel with
    | none => none
    | some (Except.error e, evs) =>
      some (st, Except.error e, Ev.evOpen st.filename env.handle :: evs)
    | some (Except.ok _, evs) =>
      some ({ st with fh := some env.handle }, Except.ok env.handle,
        (Ev.evOpen st.filename env.handle :: evs) ++
          (if st.truncate then [Ev.evTruncate env.handle] else []))

/-- Unfolding equation: no fuel left. -/
theorem acquireLoop_zero (env : Env) (tE ci : ℚ) (fwl : Bool) (h c a : ℕ)
    (le : Option ℕ) :
    acquireLoop env tE ci fwl h c a le 0 = none := rfl

/-- Unfolding equation: one step of the retry loop. -/
theorem acquireLoop_succ (env : Env) (tE ci : ℚ) (fwl : Bool) (h c a : ℕ)
    (le : Option ℕ) (fuel : ℕ) :
    acquireLoop env tE ci fwl h c a le (fuel + 1) =
      if tE > env.clock c then
        match env.prim a with
        | PrimResult.ok => some (Except.ok (), [Ev.evLockAttempt h PrimResult.ok])
        | PrimResult.contention e =>
          if fwl then
            some (Except.error (PyError.alreadyLocked (ExcArg.contention e)),
              [Ev.evLockAttempt h (PrimResult.contention e), Ev.evClose h])
          else
            match acquireLoop env tE ci fwl h (c + 1) (a + 1) (some e) fuel with
            | none => none
            | some (r, evs) =>
              some (r, Ev.evLockAttempt h (PrimResult.contention e) ::
                Ev.evSleep ci :: evs)
      else
        some (Except.error (PyError.lockException
          (match le with
           | some e => ExcArg.contention e
           | none => ExcArg.noArg)), [Ev.evClose h]) := rfl

/-- `Lock.release`: no-op when no handle is held; otherwise unlock,
close and clear `self.fh`. -/
def release (st : LockState) : LockState × List Ev :=
  match st.fh with
  | none => (st, [])
  | some h => ({ st with fh := none }, [Ev.evUnlock h, Ev.evClose h])

end Lock

/-- The state of one `RLock` instance: the inherited `Lock` state plus
the `_acquire_count` reentrancy counter. -/
structure RLockState where
  base : LockState
  acquireCount : ℕ
deriving DecidableEq

namespace RLock

/-- `RLock.__init__`: the inherited `Lock` state with the counter at 0. -/
def init (filename : String) (mode : List Char) (timeout : Option ℚ)
    (checkInterval : ℚ) (failWhenLocked : Bool) (flags : ℕ) : RLockState :=
  { base := Lock.init filename mode timeout checkInterval failWhenLocked flags
    acquireCount := 0 }

/-- `RLock.acquire`: at a positive count, return `self.fh` and bump the
counter without touching the primitive; otherwise delegate to
`Lock.acquire` and bump the counter only on success (on an exception
the counter increment is never reached). -/
def acquire (st : RLockState) (env : Env) (timeoutArg checkIntervalArg : Option ℚ)
    (failWhenLockedArg : Option Bool) (fuel : ℕ) :
    Option (RLockState × Except PyError (Option ℕ) × List Ev) :=
  if 1 ≤ st.acquireCount then
    some ({ st with acquireCount := st.acquireCount + 1 }, Except.ok st.base.fh, [])
  else
    match Lock.acquire st.base env timeoutArg checkIntervalArg failWhenLockedArg fuel with
    | none => none
    | some (b, Except.error e, evs) => some ({ st with base := b }, Except.error e, evs)
    | some (b, Except.ok h, evs) =>
      some ({ base := b, acquireCount := st.acquireCount + 1 }, Except.ok (some h), evs)

/-- `RLock.release`: raising at count 0 leaves the state unchanged, the
1 → 0 transition performs the real `Lock.release`, a higher count only
decrements. -/
def release (st : RLockState) : RLockState × Option PyError × List Ev :=
  if st.acquireCount = 0 then
    (st, some (PyError.lockException
      (ExcArg.msg "Cannot release more times than acquired")), [])
  else if st.acquireCount = 1 then
    let r := Lock.release st.base
    ({ base := r.1, acquireCount := 0 }, none, r.2)
  else
    ({ st with acquireCount := st.acquireCount - 1 }, none, [])

/-- `k` successive `RLock.acquire` calls, all required to succeed. -/
def iterAcquire (env : Env) (fuel : ℕ) : ℕ → RLockState → Option RLockState
  | 0, st => some st
  | k + 1, st =>
    match acquire st env none none none fuel with
    | some (st1, Except.ok _, _) => iterAcquire env fuel k st1
    | _ => none

/-- `k` successive `RLock.release` calls, all required to succeed. -/
def iterRelease : ℕ → RLockState → Option RLockState
  | 0, st => some st
  | k + 1, st =>
    match release st with
    | (st1, none, _) => iterRelease k st1
    | _ => none

end RLock

/-- One object derived from `LockBase`, seen through the interface the
`__enter__` / `__exit__` methods use: a no-argument `acquire` (so every
instance-configured default applies) and a `release`. -/
structure LockObj (σ η : Type) where
  acquire : σ → Option (σ × Except PyError η × List Ev)
  release : σ → σ × Option PyError × List Ev

/-- `LockBase.__enter__`: `return self.acquire()`. -/
def LockObj.enter {σ η : Type} (o : LockObj σ η) (s : σ) :
    Option (σ × Except PyError η × List Ev) :=
  o.acquire s

/-- A `with` block over a `LockBase` object: `__enter__` acquires with
the instance defaults; on every exit of the scope — the body returning
normally or raising — `__exit__` calls `release()`.  When `__enter__`
itself raises, the body never runs and `__exit__` is not called. -/
def withScope {σ η α : Type} (o : LockObj σ η) (s : σ)
    (body : η → Except PyError α) : Option (σ × Except PyError α × List Ev) :=
  match o.enter s with
  | none => none
  | some (s1, Except.error e, evs) => some (s1, Except.error e, evs)
  | some (s1, Except.ok h, evs) =>
    let r := body h
    let rel := o.release s1
    some (rel.1,
      (match rel.2.1 with
       | some e => Except.error e
       | none => r), evs ++ rel.2.2)

/-- The `Lock` class as a `LockBase` object: `acquire` with no
arguments, `release` never raises. -/
def Lock.asLockObj (env : Env) (fuel : ℕ) : LockObj LockState ℕ :=
  { acquire := fun s => Lock.acquire s env none none none fuel
    release := fun s => let r := Lock.release s; (r.1, none, r.2) }

/-- The `RLock` class as a `LockBase` object. -/
def RLock.asLockObj (env : Env) (fuel : ℕ) : LockObj RLockState (Option ℕ) :=
  { acquire := fun s => RLock.acquire s env none none none fuel
    release := fun s => RLock.release s }

/-- The state of one `BoundedSemaphore` instance: the configuration
plus `self.lock`, the `Lock` instance last stored by `try_lock`
(`none` initially).  The filename pattern is modelled as the function
applying the source pattern string to its two placeholders. -/
structure Sem where
  maximum : ℕ
  name : String
  pattern : String → ℕ → String
  directory : String
  lock : Option LockState
  timeout : Option ℚ
  checkInterval : ℚ

/-- `'{number:02d}'`: two-digit zero-padded decimal. -/
def pad2 (n : ℕ) : String :=
  if n < 10 then "0" ++ toString n else toString n

/-- The default `filename_pattern = '{name}.{number:02d}.lock'`. -/
def defaultPattern (name : String) (number : ℕ) : String :=
  name ++ "." ++ pad2 number ++ ".lock"

namespace Sem

/-- `BoundedSemaphore.get_filename`: `pathlib.Path(directory) /
pattern.format(name=..., number=...)`. -/
def get_filename (s : Sem) (number : ℕ) : String :=
  if s.directory = "" then s.pattern s.name number
  else s.directory ++ "/" ++ s.pattern s.name number

/-- `BoundedSemaphore.get_filenames`: the candidate files in index
order `0 .. maximum - 1`. -/
def get_filenames (s : Sem) : List String :=
  (List.range s.maximum).map s.get_filename

/-- `BoundedSemaphore.get_random_filenames`: `random.shuffle` applied
to the candidate list; the random source is the supplied `shuffle`
function. -/
def get_random_filenames (shuffle : List String → List String) (s : Sem) :
    List String :=
  shuffle s.get_filenames

/-- `BoundedSemaphore.try_lock`: walk the candidate list in order; for
each candidate store a fresh fail-fast `Lock` in `self.lock` and
attempt `acquire()`; success returns `True`, an `AlreadyLocked` moves
on to the next candidate (leaving `self.lock` pointing at the failed
instance), any other exception propagates; falling off the end returns
`None` (modelled as `false`).  `envs i` is the environment of the
`acquire` call on the i-th candidate of this pass. -/
def try_lock (s : Sem) (envs : ℕ → Env) (lockFuel : ℕ) :
    List String → ℕ → Option (Sem × Except PyError Bool × List Ev)
  | [], _ => some (s, Except.ok false, [])
  | f :: rest, i =>
    let lk := Lock.init f ['a'] (some DEFAULT_TIMEOUT) DEFAULT_CHECK_INTERVAL
      true LOCK_METHOD
    match Lock.acquire lk (envs i) none none none lockFuel with
    | none => none
    | some (lk1, Except.ok _, evs) =>
      some ({ s with lock := some lk1 }, Except.ok true, evs)
    | some (lk1, Except.error (PyError.alreadyLocked _), evs) =>
      match try_lock { s with lock := some lk1 } envs lockFuel rest (i + 1) with
      | none => none
      | some (s1, r, evs1) => some (s1, r, evs ++ evs1)
    | some (lk1, Except.error e, evs) =>
      some ({ s with lock := some lk1 }, Except.error e, evs)

/-- The polling loop of `BoundedSemaphore.acquire` (`while timeout_end
> current_time()`), with explicit fuel; `passIdx` numbers the
`try_lock` passes (the initial pass is 0) and `clockIdx` the clock
readings. -/
def acquireLoop (clock : ℕ → ℚ) (passEnv : ℕ → ℕ → Env) (lockFuel : ℕ)
    (filenames : List String) (timeoutEnd checkInterval : ℚ) :
    Sem → ℕ → ℕ → ℕ → Option (Sem × Except PyError Unit × List Ev)
  | _, _, _, 0 => none
  | s, passIdx, clockIdx, fuel + 1 =>
    if timeoutEnd > clock clockIdx then
      match try_lock s (passEnv passIdx) lockFuel filenames 0 with
      | none => none
      | some (s1, Except.ok true, evs) => some (s1, Except.ok (), evs)
      | some (s1, Except.error e, evs) => some (s1, Except.error e, evs)
      | some (s1, Except.ok false, evs) =>
        match acquireLoop clock passEnv lockFuel filenames timeoutEnd
            checkInterval s1 (passIdx + 1) (clockIdx + 1) fuel with
        | none => none
        | some (s2, r, evs1) =>
          some (s2, r, evs ++ (Ev.evSleep checkInterval :: evs1))
    else
      some (s, Except.error (PyError.alreadyLocked ExcArg.noArg), [])

/-- `BoundedSemaphore.acquire`: assert no permit is held, resolve the
timeout (`None` at both levels becomes 0), build the candidate list
with `get_filenames`, do one `try_lock` pass, fail with
`AlreadyLocked` when the timeout is 0, otherwise poll until the
deadline.  The random source is never consulted. -/
def acquire (s : Sem) (clock : ℕ → ℚ) (passEnv : ℕ → ℕ → Env)
    (timeoutArg checkIntervalArg : Option ℚ) (lockFuel loopFuel : ℕ) :
    Option (Sem × Except PyError Unit × List Ev) :=
  match s.lock with
  | some _ => some (s, Except.error (PyError.assertionError "Already locked"), [])
  | none =>
    let timeout := Lock.resolveTimeout timeoutArg s.timeout
    let checkInterval := checkIntervalArg.getD s.checkInterval
    let filenames := s.get_filenames
    match try_lock s (passEnv 0) lockFuel filenames 0 with
    | none => none
    | some (s1, Except.ok true, evs) => some (s1, Except.ok (), evs)
    | some (s1, Except.error e, evs) => some (s1, Except.error e, evs)
    | some (s1, Except.ok false, evs) =>
      if timeout = 0 then
        some (s1, Except.error (PyError.alreadyLocked ExcArg.noArg), evs)
      else
        let timeoutEnd := clock 0 + timeout
        match acquireLoop clock passEnv lockFuel filenames timeoutEnd
            checkInterval s1 1 1 loopFuel with
        | none => none
        | some (s2, r, evs1) => some (s2, r, evs ++ evs1)

/-- Unfolding equation: `try_lock` on an exhausted candidate list
returns `None` (falsy). -/
theorem try_lock_nil (s : Sem) (envs : ℕ → Env) (lockFuel i : ℕ) :
    try_lock s envs lockFuel [] i = some (s, Except.ok false, []) := rfl

/-- Unfolding equation: `try_lock` on one more candidate. -/
theorem try_lock_cons (s : Sem) (envs : ℕ → Env) (lockFuel i : ℕ)
    (f : String) (rest : List String) :
    try_lock s envs lockFuel (f :: rest) i =
      match Lock.acquire (Lock.init f ['a'] (some DEFAULT_TIMEOUT)
          DEFAULT_CHECK_INTERVAL true LOCK_METHOD) (envs i) none none none lockFuel with
      | none => none
      | some (lk1, Except.ok _, evs) =>
        some ({ s with lock := some lk1 }, Except.ok true, evs)
      | some (lk1, Except.error (PyError.alreadyLocked _a), evs) =>
        match try_lock { s with lock := some lk1 } envs lockFuel rest (i + 1) with
        | none => none
        | some (s1, r, evs1) => some (s1, r, evs ++ evs1)
      | some (lk1, Except.error e, evs) =>
        some ({ s with lock := some lk1 }, Except.error e, evs) := rfl

/-- Unfolding equation: the polling loop with no fuel. -/
theorem semLoop_zero (clock : ℕ → ℚ) (passEnv : ℕ → ℕ → Env)
    (lockFuel : ℕ) (filenames : List String) (tE ci : ℚ) (s : Sem)
    (passIdx clockIdx : ℕ) :
    acquireLoop clock passEnv lockFuel filenames tE ci s passIdx clockIdx 0 =
      none := rfl

/-- Unfolding equation: one iteration of the polling loop. -/
theorem semLoop_succ (clock : ℕ → ℚ) (passEnv : ℕ → ℕ → Env)
    (lockFuel : ℕ) (filenames : List String) (tE ci : ℚ) (s : Sem)
    (passIdx clockIdx fuel : ℕ) :
    acquireLoop clock passEnv lockFuel filenames tE ci s passIdx clockIdx
        (fuel + 1) =
      if tE > clock clockIdx then
        match try_lock s (passEnv passIdx) lockFuel filenames 0 with
        | none => none
        | some (s1, Except.ok true, evs) => some (s1, Except.ok (), evs)
        | some (s1, Except.error e, evs) => some (s1, Except.error e, evs)
        | some (s1, Except.ok false, evs) =>
          match acquireLoop clock passEnv lockFuel filenames tE ci s1
              (passIdx + 1) (clockIdx + 1) fuel with
          | none => none
          | some (s2, r, evs1) =>
            some (s2, r, evs ++ (Ev.evSleep ci :: evs1))
      else
        some (s, Except.error (PyError.alreadyLocked ExcArg.noArg), []) := rfl

end Sem

/-- A directory as an association list from path to file content
(lists of bytes); paths occur at most once. -/
def FS : Type := List (String × List ℕ)

/-- Content of a path, when present. -/
def FS.lookup (fs : FS) (p : String) : Option (List ℕ) :=
  (List.find? (fun x => x.1 = p) fs).map (fun x => x.2)

/-- `os.path.exists`. -/
def FS.pathExists (fs : FS) (p : String) : Bool :=
  (fs.lookup p).isSome

/-- Create or overwrite a file. -/
def FS.set (fs : FS) (p : String) (c : List ℕ) : FS :=
  (p, c) :: List.filter (fun x => ¬ x.1 = p) fs

/-- `os.remove`, as a pure deletion (absence is handled at call sites). -/
def FS.remove (fs : FS) (p : String) : FS :=
  List.filter (fun x => ¬ x.1 = p) fs

/-- What the caller's scope body did with the temp handle: the bytes it
wrote, and the exception it raised at the `yield` point, if any. -/
structure BodyRun where
  written : List ℕ
  raised : Option PyError

/-- `open_atomic(filename)`: assert the target does not exist, create
the temp file (its fresh name is `tempName`), run the caller's body,
then flush / fsync / close (a failure there is `syncErr`), then
`os.rename` inside `try/finally` whose `finally` does a best-effort
`os.remove` of the temp name.  An exception raised by the body
propagates from the `yield` with no cleanup, since the source wraps no
`try` around the yield; likewise a flush/fsync/close failure.  Only
the rename is followed by the temp-file removal, on success (where the
removal finds nothing and is swallowed) and on failure alike. -/
def open_atomic (fs : FS) (filename tempName : String) (body : BodyRun)
    (syncErr : Option PyError) (renameOk : Bool) : FS × Except PyError Unit :=
  if fs.pathExists filename then
    (fs, Except.error (PyError.assertionError "exists"))
  else
    let fs1 := fs.set tempName body.written
    match body.raised with
    | some e => (fs1, Except.error e)
    | none =>
      match syncErr with
      | some e => (fs1, Except.error e)
      | none =>
        if renameOk then
          let fs2 := (fs1.remove tempName).set filename body.written
          (fs2.remove tempName, Except.ok ())
        else
          (fs1.remove tempName, Except.error (PyError.osError "rename"))

/-- The filenames opened during a trace, in order. -/
def openedFiles (evs : List Ev) : List String :=
  evs.filterMap fun ev =>
    match ev with
    | Ev.evOpen f _ => some f
    | _ => none

/-- Number of advisory-lock attempts recorded in a trace. -/
def attemptsIn (evs : List Ev) : ℕ :=
  (evs.filter fun ev =>
    match ev with
    | Ev.evLockAttempt _ _ => true
    | _ => false).length

/-- A monotone clock whose readings are 0, 1, 2, … with a lock
primitive that always succeeds (the lock file is free). -/
def freeEnv : Env :=
  { clock := fun n => (n : ℚ), prim := fun _ => PrimResult.ok, handle := 7 }

/-- The same clock with a primitive that always reports contention
(error id 3): the lock file is continuously held by another party. -/
def busyEnv : Env :=
  { clock := fun n => (n : ℚ), prim := fun _ => PrimResult.contention 3, handle := 0 }

/-- A `Lock("f")` with the source defaults (mode a, timeout 5). -/
def lockA : LockState :=
  Lock.init "f" ['a'] (some 5) DEFAULT_CHECK_INTERVAL false LOCK_METHOD

/-- A `Lock("f", timeout=None)`: the timeout is absent at the instance
level as well. -/
def lockNoTimeout : LockState :=
  Lock.init "f" ['a'] none DEFAULT_CHECK_INTERVAL false LOCK_METHOD

/-- The clock reading 0, 1, 2, … used by concrete semaphore runs. -/
def clkN : ℕ → ℚ := fun n => (n : ℚ)

/-- Every pass of every candidate sees the contended environment. -/
def passBusy : ℕ → ℕ → Env := fun _ _ => busyEnv

/-- Every pass of every candidate sees the free environment. -/
def passFree : ℕ → ℕ → Env := fun _ _ => freeEnv

/-- `BoundedSemaphore(2, directory='')` with the source defaults. -/
def semA : Sem :=
  { maximum := 2, name := "bounded_semaphore", pattern := defaultPattern,
    directory := "", lock := none, timeout := some DEFAULT_TIMEOUT,
    checkInterval := DEFAULT_CHECK_INTERVAL }

/-- The fail-fast `Lock` that `try_lock` constructs for a candidate. -/
def permitLock (f : String) : LockState :=
  Lock.init f ['a'] (some DEFAULT_TIMEOUT) DEFAULT_CHECK_INTERVAL true LOCK_METHOD

/-- Helper: a successful `Lock.acquire` always stores the returned
handle in `self.fh`. -/
theorem Lock.acquire_ok_fh {st st1 : LockState} {env : Env}
    {tA cA : Option ℚ} {fA : Option Bool} {fuel h : ℕ} {evs : List Ev}
    (H : Lock.acquire st env tA cA fA fuel = some (st1, Except.ok h, evs)) :
    st1.fh = some h := by
  unfold Lock.acquire at H
  cases hfh : st.fh with
  | some h0 =>
    rw [hfh] at H
    simp only [Option.some.injEq, Prod.mk.injEq, Except.ok.injEq] at H
    rw [← H.1, hfh, H.2.1]
  | none =>
    rw [hfh] at H
    cases hl : Lock.acquireLoop env (env.clock 0 + Lock.resolveTimeout tA st.timeout)
        (cA.getD st.checkInterval) (fA.getD st.failWhenLocked) env.handle 1 0 none fuel with
    | none => rw [hl] at H; exact absurd H (by simp)
    | some r =>
      obtain ⟨res, evs0⟩ := r
      rw [hl] at H
      cases res with
      | error e => simp only [Option.some.injEq, Prod.mk.injEq] at H; exact absurd H.2.1 (by simp)
      | ok u =>
        simp only [Option.some.injEq, Prod.mk.injEq, Except.ok.injEq] at H
        rw [← H.1, ← H.2.1]

/-- Helper: a failed `Lock.acquire` leaves the instance state
unchanged (`self.fh` is only assigned after the loop succeeds). -/
theorem Lock.acquire_error_state {st st1 : LockState} {env : Env}
    {tA cA : Option ℚ} {fA : Option Bool} {fuel : ℕ} {e : PyError} {evs : List Ev}
    (H : Lock.acquire st env tA cA fA fuel = some (st1, Except.error e, evs)) :
    st1 = st := by
  unfold Lock.acquire at H
  cases hfh : st.fh with
  | some h0 =>
    rw [hfh] at H
    simp only [Option.some.injEq, Prod.mk.injEq] at H
    exact absurd H.2.1 (by simp)
  | none =>
    rw [hfh] at H
    cases hl : Lock.acquireLoop env (env.clock 0 + Lock.resolveTimeout tA st.timeout)
        (cA.getD st.checkInterval) (fA.getD st.failWhenLocked) env.handle 1 0 none fuel with
    | none => rw [hl] at H; exact absurd H (by simp)
    | some r =>
      obtain ⟨res, evs0⟩ := r
      rw [hl] at H
      cases res with
      | error e0 =>
        simp only [Option.some.injEq, Prod.mk.injEq] at H
        exact H.1.symm
      | ok u =>
        simp only [Option.some.injEq, Prod.mk.injEq] at H
        exact absurd H.2.1 (by simp)

/-- C1 (amended): when the resolved timeout is 0 — passed explicitly
or produced by an absent timeout at both the call and the instance
level — `acquire` on an unlocked instance performs ZERO attempts of
the advisory-lock primitive and no sleep, and always fails with the
generic `LockException` (with no cause), even when the lock is free:
the deadline `current_time() + 0` is already reached when the loop
condition is first checked.  Both configuration paths behave
identically; the outcome never depends on the primitive. -/
theorem claim1_zero_timeout_zero_attempts (st : LockState) (env : Env)
    (tArg ciArg : Option ℚ) (fArg : Option Bool) (fuel : ℕ)
    (hfh : st.fh = none) (hfuel : 1 ≤ fuel)
    (hclock : env.clock 0 ≤ env.clock 1)
    (ht : Lock.resolveTimeout tArg st.timeout = 0) :
    Lock.acquire st env tArg ciArg fArg fuel =
      some (st, Except.error (PyError.lockException ExcArg.noArg),
        [Ev.evOpen st.filename env.handle, Ev.evClose env.handle]) := by
  cases fuel with
  | zero => exact absurd hfuel (by omega)
  | succ f =>
    unfold Lock.acquire
    rw [hfh, ht, Lock.acquireLoop_succ,
      if_neg (by rw [add_zero]; exact not_lt.mpr hclock)]

/-- C1 counterexample: a free lock (`freeEnv.prim 0 = ok`), timeout 0:
`acquire` fails with `LockException` and its trace contains no lock
attempt at all, contradicting "performs exactly one attempt: on a free
lock it succeeds". -/
theorem claim1_counterexample :
    Lock.acquire lockA freeEnv (some 0) none none 3 =
      some (lockA, Except.error (PyError.lockException ExcArg.noArg),
        [Ev.evOpen "f" 7, Ev.evClose 7]) ∧
    attemptsIn [Ev.evOpen "f" 7, Ev.evClose 7] = 0 ∧
    freeEnv.prim 0 = PrimResult.ok := by
  refine ⟨?_, rfl, rfl⟩
  unfold Lock.acquire
  norm_num [lockA, Lock.init, freeEnv, Lock.resolveTimeout, Lock.acquireLoop_succ]

/-- C1 witness: the amended theorem applied on the explicit
`timeout=0` path and on the `timeout=None`-at-both-levels path; the
two outcomes are identical. -/
theorem claim1_witness :
    Lock.acquire lockA freeEnv (some 0) none none 3 =
      some (lockA, Except.error (PyError.lockException ExcArg.noArg),
        [Ev.evOpen lockA.filename freeEnv.handle, Ev.evClose freeEnv.handle]) ∧
    Lock.acquire lockNoTimeout freeEnv none none none 3 =
      some (lockNoTimeout, Except.error (PyError.lockException ExcArg.noArg),
        [Ev.evOpen lockNoTimeout.filename freeEnv.handle, Ev.evClose freeEnv.handle]) :=
  ⟨claim1_zero_timeout_zero_attempts lockA freeEnv (some 0) none none 3 rfl
      (by omega) (by norm_num [freeEnv]) rfl,
    claim1_zero_timeout_zero_attempts lockNoTimeout freeEnv none none none 3 rfl
      (by omega) (by norm_num [freeEnv]) rfl⟩

/-- Expected trace of `k` contended loop iterations starting at
attempt index `a`: each iteration records the failed attempt and the
poll sleep. -/
def contTrace (h : ℕ) (ci : ℚ) (es : ℕ → ℕ) : ℕ → ℕ → List Ev
  | _, 0 => []
  | a, k + 1 =>
    Ev.evLockAttempt h (PrimResult.contention (es a)) :: Ev.evSleep ci ::
      contTrace h ci es (a + 1) k

/-- The `exception` variable after `k` further contended iterations
starting from attempt index `a`, turned into the argument of the final
`LockException`. -/
def lastCause (es : ℕ → ℕ) : Option ℕ → ℕ → ℕ → ExcArg
  | le, _, 0 =>
    match le with
    | some e => ExcArg.contention e
    | none => ExcArg.noArg
  | _, a, k + 1 => lastCause es (some (es a)) (a + 1) k

/-- After at least one contended iteration the final cause is the last
contention error observed. -/
theorem lastCause_last (es : ℕ → ℕ) (le : Option ℕ) (a k : ℕ) :
    lastCause es le a (k + 1) = ExcArg.contention (es (a + k)) := by
  induction k generalizing le a with
  | zero => simp [lastCause]
  | succ k ih =>
    show lastCause es (some (es a)) (a + 1) (k + 1) = _
    rw [ih]
    have : a + 1 + k = a + (k + 1) := by omega
    rw [this]

/-- Helper: the retry loop under `fail_when_locked = False`, when every
of the first `k` deadline checks passes and every of the first `k`
attempts is contended and the check `k` fails: the loop closes the
handle and raises `LockException` with the last observed cause. -/
theorem Lock.acquireLoop_timeout (env : Env) (tE ci : ℚ) (h : ℕ) (es : ℕ → ℕ)
    (k c a : ℕ) (le : Option ℕ) (fuel : ℕ)
    (hfuel : k + 1 ≤ fuel)
    (hcond : ∀ i < k, tE > env.clock (c + i))
    (hprim : ∀ i < k, env.prim (a + i) = PrimResult.contention (es (a + i)))
    (hstop : ¬ tE > env.clock (c + k)) :
    Lock.acquireLoop env tE ci false h c a le fuel =
      some (Except.error (PyError.lockException (lastCause es le a k)),
        contTrace h ci es a k ++ [Ev.evClose h]) := by
  induction k generalizing c a le fuel with
  | zero =>
    cases fuel with
    | zero => omega
    | succ f =>
      rw [Lock.acquireLoop_succ, if_neg (by simpa using hstop)]
      rfl
  | succ k ih =>
    cases fuel with
    | zero => omega
    | succ f =>
      have h0 : tE > env.clock c := by simpa using hcond 0 (by omega)
      have hp0 : env.prim a = PrimResult.contention (es a) := by simpa using hprim 0 (by omega)
      rw [Lock.acquireLoop_succ, if_pos h0, hp0]
      have hrec := ih (c + 1) (a + 1) (some (es a)) f (by omega)
        (fun i hi => by
          have := hcond (i + 1) (by omega)
          have e1 : c + (i + 1) = c + 1 + i := by omega
          rwa [e1] at this)
        (fun i hi => by
          have := hprim (i + 1) (by omega)
          have e1 : a + (i + 1) = a + 1 + i := by omega
          rwa [e1] at this)
        (by
          have e1 : c + (k + 1) = c + 1 + k := by omega
          rwa [e1] at hstop)
      simp only [Bool.false_eq_true, if_false, hrec]
      rfl

/-- Helper: `fail_when_locked` resolved true, first deadline check
passes, first attempt contended: `acquire` closes the handle and
raises `AlreadyLocked` carrying the contention error; state unchanged. -/
theorem Lock.acquire_failFast (st : LockState) (env : Env)
    (tA cA : Option ℚ) (fA : Option Bool) (fuel e : ℕ)
    (hfh : st.fh = none) (hfuel : 1 ≤ fuel)
    (hfwl : fA.getD st.failWhenLocked = true)
    (hcond : env.clock 0 + Lock.resolveTimeout tA st.timeout > env.clock 1)
    (hprim : env.prim 0 = PrimResult.contention e) :
    Lock.acquire st env tA cA fA fuel =
      some (st, Except.error (PyError.alreadyLocked (ExcArg.contention e)),
        [Ev.evOpen st.filename env.handle,
          Ev.evLockAttempt env.handle (PrimResult.contention e),
          Ev.evClose env.handle]) := by
  cases fuel with
  | zero => exact absurd hfuel (by omega)
  | succ f =>
    unfold Lock.acquire
    rw [hfh, hfwl, Lock.acquireLoop_succ, if_pos hcond, hprim]
    rfl

/-- C5: failure modes of a contended `Lock.acquire`.  First conjunct:
with fail-fast resolved, the very first contention closes the opened
handle and raises `AlreadyLocked` carrying that contention error — not
the generic timeout error.  Second conjunct: without fail-fast, after
`k ≥ 1` contended attempts the deadline check fails, the handle is
closed and the generic `LockException` is raised carrying the LAST
observed contention error as cause.  In both cases the returned state
is the input state: no lock and no handle is retained. -/
theorem claim5_failure_modes :
    (∀ (st : LockState) (env : Env) (tA cA : Option ℚ) (fA : Option Bool)
        (fuel e : ℕ),
      st.fh = none → 1 ≤ fuel → fA.getD st.failWhenLocked = true →
      env.clock 0 + Lock.resolveTimeout tA st.timeout > env.clock 1 →
      env.prim 0 = PrimResult.contention e →
      Lock.acquire st env tA cA fA fuel =
        some (st, Except.error (PyError.alreadyLocked (ExcArg.contention e)),
          [Ev.evOpen st.filename env.handle,
            Ev.evLockAttempt env.handle (PrimResult.contention e),
            Ev.evClose env.handle])) ∧
    (∀ (st : LockState) (env : Env) (tA cA : Option ℚ) (fA : Option Bool)
        (fuel k : ℕ) (es : ℕ → ℕ),
      st.fh = none → fA.getD st.failWhenLocked = false → 1 ≤ k → k + 1 ≤ fuel →
      (∀ i < k, env.clock 0 + Lock.resolveTimeout tA st.timeout > env.clock (1 + i)) →
      (∀ i < k, env.prim i = PrimResult.contention (es i)) →
      ¬ env.clock 0 + Lock.resolveTimeout tA st.timeout > env.clock (1 + k) →
      Lock.acquire st env tA cA fA fuel =
        some (st, Except.error (PyError.lockException (ExcArg.contention (es (k - 1)))),
          Ev.evOpen st.filename env.handle ::
            (contTrace env.handle (cA.getD st.checkInterval) es 0 k ++
              [Ev.evClose env.handle]))) := by
  constructor
  · intro st env tA cA fA fuel e hfh hfuel hfwl hcond hprim
    exact Lock.acquire_failFast st env tA cA fA fuel e hfh hfuel hfwl hcond hprim
  · intro st env tA cA fA fuel k es hfh hfwl hk hfuel hcond hprim hstop
    cases fuel with
    | zero => omega
    | succ f =>
      unfold Lock.acquire
      rw [hfh, hfwl]
      rw [Lock.acquireLoop_timeout env _ _ _ es k 1 0 none (f + 1) hfuel
        (fun i hi => by simpa using hcond i hi)
        (fun i hi => by simpa using hprim i hi)
        (by simpa using hstop)]
      obtain ⟨j, rfl⟩ : ∃ j, k = j + 1 := ⟨k - 1, by omega⟩
      rw [lastCause_last]
      simp

/-- C5 witness: fail-fast on the contended environment raises
`AlreadyLocked(contention 3)`; waiting with timeout 2 performs one
attempt, sleeps once, then raises `LockException` caused by the last
contention error; both leave the state unchanged. -/
theorem claim5_witness :
    Lock.acquire lockA busyEnv none none (some true) 3 =
      some (lockA, Except.error (PyError.alreadyLocked (ExcArg.contention 3)),
        [Ev.evOpen "f" 0, Ev.evLockAttempt 0 (PrimResult.contention 3),
          Ev.evClose 0]) ∧
    Lock.acquire lockA busyEnv (some 2) none none 5 =
      some (lockA, Except.error (PyError.lockException (ExcArg.contention 3)),
        [Ev.evOpen "f" 0, Ev.evLockAttempt 0 (PrimResult.contention 3),
          Ev.evSleep DEFAULT_CHECK_INTERVAL, Ev.evClose 0]) := by
  constructor
  · exact claim5_failure_modes.1 lockA busyEnv none none (some true) 3 3 rfl
      (by omega) rfl
      (by norm_num [busyEnv, lockA, Lock.init, Lock.resolveTimeout]) rfl
  · have := claim5_failure_modes.2 lockA busyEnv (some 2) none none 5 1
      (fun _ => 3) rfl rfl (by omega) (by omega)
      (fun i hi => by
        have : i = 0 := by omega
        subst this
        norm_num [busyEnv, lockA, Lock.init, Lock.resolveTimeout])
      (fun i hi => rfl)
      (by norm_num [busyEnv, lockA, Lock.init, Lock.resolveTimeout])
    simpa [contTrace, lockA, Lock.init, busyEnv, DEFAULT_CHECK_INTERVAL] using this

/-- Does a trace contain a truncate action? -/
def hasTrunc (evs : List Ev) : Bool :=
  evs.any fun ev =>
    match ev with
    | Ev.evTruncate _ => true
    | _ => false

/-- Scan state: is the advisory lock held after these events, starting
from `held`? -/
def heldAfter (held : Bool) : List Ev → Bool
  | [] => held
  | Ev.evLockAttempt _ PrimResult.ok :: rest => heldAfter true rest
  | _ :: rest => heldAfter held rest

/-- Every truncate action in the trace happens while the advisory lock
is held (i.e. strictly after some successful lock attempt, when
starting unheld). -/
def truncOnlyWhenHeld (held : Bool) : List Ev → Bool
  | [] => true
  | Ev.evTruncate _ :: rest => held && truncOnlyWhenHeld held rest
  | Ev.evLockAttempt _ PrimResult.ok :: rest => truncOnlyWhenHeld true rest
  | _ :: rest => truncOnlyWhenHeld held rest

/-- Scanning an appended trace. -/
theorem truncOnlyWhenHeld_append (xs ys : List Ev) (held : Bool) :
    truncOnlyWhenHeld held (xs ++ ys) =
      (truncOnlyWhenHeld held xs && truncOnlyWhenHeld (heldAfter held xs) ys) := by
  induction xs generalizing held with
  | nil => simp [truncOnlyWhenHeld, heldAfter]
  | cons ev rest ih =>
    cases ev with
    | evTruncate h =>
      show (held && truncOnlyWhenHeld held (rest ++ ys)) =
        ((held && truncOnlyWhenHeld held rest) &&
          truncOnlyWhenHeld (heldAfter held rest) ys)
      rw [ih held, Bool.and_assoc]
    | evLockAttempt h r =>
      cases r with
      | ok => exact ih true
      | contention e => exact ih held
    | evOpen f h => exact ih held
    | evSleep d => exact ih held
    | evUnlock h => exact ih held
    | evClose h => exact ih held

/-- A trace without truncate actions is trivially truncate-safe. -/
theorem truncOnlyWhenHeld_of_no_trunc (evs : List Ev) (held : Bool)
    (H : hasTrunc evs = false) : truncOnlyWhenHeld held evs = true := by
  induction evs generalizing held with
  | nil => rfl
  | cons ev rest ih =>
    have hrest : hasTrunc rest = false := by
      simp only [hasTrunc, List.any_cons, Bool.or_eq_false_iff] at H
      exact H.2
    cases ev with
    | evTruncate h =>
      exact absurd H (by simp [hasTrunc])
    | evLockAttempt h r =>
      cases r with
      | ok => exact ih true hrest
      | contention e => exact ih held hrest
    | evOpen f h => exact ih held hrest
    | evSleep d => exact ih held hrest
    | evUnlock h => exact ih held hrest
    | evClose h => exact ih held hrest

/-- Helper: the retry loop itself never truncates. -/
theorem Lock.acquireLoop_no_trunc (env : Env) (tE ci : ℚ) (fwl : Bool)
    (h : ℕ) (c a : ℕ) (le : Option ℕ) (fuel : ℕ)
    (r : Except PyError Unit) (evs : List Ev)
    (H : Lock.acquireLoop env tE ci fwl h c a le fuel = some (r, evs)) :
    hasTrunc evs = false := by
  induction fuel generalizing c a le r evs with
  | zero => rw [Lock.acquireLoop_zero] at H; exact absurd H (by simp)
  | succ f ih =>
    rw [Lock.acquireLoop_succ] at H
    by_cases hc : tE > env.clock c
    · rw [if_pos hc] at H
      cases hp : env.prim a with
      | ok =>
        rw [hp] at H
        simp only [Option.some.injEq, Prod.mk.injEq] at H
        rw [← H.2]
        rfl
      | contention e =>
        simp only [hp] at H
        by_cases hf : fwl = true
        · rw [if_pos hf] at H
          simp only [Option.some.injEq, Prod.mk.injEq] at H
          rw [← H.2]
          rfl
        · rw [if_neg hf] at H
          cases hl : Lock.acquireLoop env tE ci fwl h (c + 1) (a + 1) (some e) f with
          | none => rw [hl] at H; exact absurd H (by simp)
          | some pr =>
            obtain ⟨r0, evs0⟩ := pr
            rw [hl] at H
            simp only [Option.some.injEq, Prod.mk.injEq] at H
            rw [← H.2]
            have := ih (c + 1) (a + 1) (some e) r0 evs0 hl
            simpa [hasTrunc] using this
    · rw [if_neg hc] at H
      simp only [Option.some.injEq, Prod.mk.injEq] at H
      rw [← H.2]
      rfl

/-- Helper: when the retry loop succeeds, its trace ends in a
successful attempt, so the lock is held at the end of the scan. -/
theorem Lock.acquireLoop_ok_held (env : Env) (tE ci : ℚ) (fwl : Bool)
    (h : ℕ) (c a : ℕ) (le : Option ℕ) (fuel : ℕ) (evs : List Ev) (b : Bool)
    (H : Lock.acquireLoop env tE ci fwl h c a le fuel = some (Except.ok (), evs)) :
    heldAfter b evs = true := by
  induction fuel generalizing c a le evs b with
  | zero => rw [Lock.acquireLoop_zero] at H; exact absurd H (by simp)
  | succ f ih =>
    rw [Lock.acquireLoop_succ] at H
    by_cases hc : tE > env.clock c
    · rw [if_pos hc] at H
      cases hp : env.prim a with
      | ok =>
        rw [hp] at H
        simp only [Option.some.injEq, Prod.mk.injEq] at H
        rw [← H.2]
        rfl
      | contention e =>
        simp only [hp] at H
        by_cases hf : fwl = true
        · rw [if_pos hf] at H
          simp only [Option.some.injEq, Prod.mk.injEq] at H
          exact absurd H.1 (by simp)
        · rw [if_neg hf] at H
          cases hl : Lock.acquireLoop env tE ci fwl h (c + 1) (a + 1) (some e) f with
          | none => rw [hl] at H; exact absurd H (by simp)
          | some pr =>
            obtain ⟨r0, evs0⟩ := pr
            rw [hl] at H
            simp only [Option.some.injEq, Prod.mk.injEq] at H
            cases r0 with
            | error e0 => exact absurd H.1 (by simp)
            | ok u =>
              rw [← H.2]
              exact ih (c + 1) (a + 1) (some e) evs0 b hl
    · rw [if_neg hc] at H
      simp only [Option.some.injEq, Prod.mk.injEq] at H
      exact absurd H.1 (by simp)

/-- C4: write-mode handling.  First conjunct: a mode containing w is
rewritten by `__init__` to the append-compatible mode (every w becomes
a, so the stored mode truncates nothing at open time) and the deferred
truncate flag is set.  Second conjunct: in every trace of
`Lock.acquire`, a truncate action only ever happens after a successful
lock attempt (open, then lock, then truncate — never truncate before
the lock is held).  Third conjunct: a failed `acquire` never truncates
at all, so an instance that never obtains the lock never destroys the
holder's data. -/
theorem claim4_truncate_after_lock :
    (∀ (f : String) (mode : List Char) (t : Option ℚ) (ci : ℚ) (fw : Bool) (fl : ℕ),
      'w' ∈ mode →
        (Lock.init f mode t ci fw fl).truncate = true ∧
        'w' ∉ (Lock.init f mode t ci fw fl).mode ∧
        (Lock.init f mode t ci fw fl).mode = replaceChar mode 'w' 'a') ∧
    (∀ (st st1 : LockState) (env : Env) (tA cA : Option ℚ) (fA : Option Bool)
        (fuel : ℕ) (r : Except PyError ℕ) (evs : List Ev),
      Lock.acquire st env tA cA fA fuel = some (st1, r, evs) →
        truncOnlyWhenHeld false evs = true) ∧
    (∀ (st st1 : LockState) (env : Env) (tA cA : Option ℚ) (fA : Option Bool)
        (fuel : ℕ) (e : PyError) (evs : List Ev),
      Lock.acquire st env tA cA fA fuel = some (st1, Except.error e, evs) →
        hasTrunc evs = false) := by
  refine ⟨?_, ?_, ?_⟩
  · intro f mode t ci fw fl hw
    refine ⟨by simp [Lock.init, hw], ?_, by simp [Lock.init, hw]⟩
    simp only [Lock.init, if_pos hw, replaceChar, List.mem_map]
    rintro ⟨x, hx, hfx⟩
    by_cases hxw : x = 'w'
    · rw [if_pos hxw] at hfx
      exact absurd hfx (by decide)
    · rw [if_neg hxw] at hfx
      exact hxw hfx
  · intro st st1 env tA cA fA fuel r evs H
    unfold Lock.acquire at H
    cases hfh : st.fh with
    | some h0 =>
      rw [hfh] at H
      simp only [Option.some.injEq, Prod.mk.injEq] at H
      rw [← H.2.2]
      rfl
    | none =>
      rw [hfh] at H
      cases hl : Lock.acquireLoop env (env.clock 0 + Lock.resolveTimeout tA st.timeout)
          (cA.getD st.checkInterval) (fA.getD st.failWhenLocked) env.handle 1 0 none fuel with
      | none => rw [hl] at H; exact absurd H (by simp)
      | some pr =>
        obtain ⟨r0, evs0⟩ := pr
        rw [hl] at H
        cases r0 with
        | error e0 =>
          simp only [Option.some.injEq, Prod.mk.injEq] at H
          rw [← H.2.2]
          have hnt := Lock.acquireLoop_no_trunc env _ _ _ _ 1 0 none fuel _ _ hl
          have : hasTrunc (Ev.evOpen st.filename env.handle :: evs0) = false := by
            simpa [hasTrunc] using hnt
          exact truncOnlyWhenHeld_of_no_trunc _ _ this
        | ok u =>
          simp only [Option.some.injEq, Prod.mk.injEq] at H
          rw [← H.2.2]
          have hnt := Lock.acquireLoop_no_trunc env _ _ _ _ 1 0 none fuel _ _ hl
          have hopen : truncOnlyWhenHeld false (Ev.evOpen st.filename env.handle :: evs0) = true := by
            refine truncOnlyWhenHeld_of_no_trunc _ _ ?_
            simpa [hasTrunc] using hnt
          rw [truncOnlyWhenHeld_append, hopen]
          have hheld : heldAfter false (Ev.evOpen st.filename env.handle :: evs0) = true := by
            show heldAfter false evs0 = true
            exact Lock.acquireLoop_ok_held env _ _ _ _ 1 0 none fuel _ false hl
          rw [hheld]
          cases st.truncate with
          | false => rfl
          | true => rfl
  · intro st st1 env tA cA fA fuel e evs H
    unfold Lock.acquire at H
    cases hfh : st.fh with
    | some h0 =>
      rw [hfh] at H
      simp only [Option.some.injEq, Prod.mk.injEq] at H
      exact absurd H.2.1 (by simp)
    | none =>
      rw [hfh] at H
      cases hl : Lock.acquireLoop env (env.clock 0 + Lock.resolveTimeout tA st.timeout)
          (cA.getD st.checkInterval) (fA.getD st.failWhenLocked) env.handle 1 0 none fuel with
      | none => rw [hl] at H; exact absurd H (by simp)
      | some pr =>
        obtain ⟨r0, evs0⟩ := pr
        rw [hl] at H
        cases r0 with
        | ok u =>
          simp only [Option.some.injEq, Prod.mk.injEq] at H
          exact absurd H.2.1 (by simp)
        | error e0 =>
          simp only [Option.some.injEq, Prod.mk.injEq] at H
          rw [← H.2.2]
          have hnt := Lock.acquireLoop_no_trunc env _ _ _ _ 1 0 none fuel _ _ hl
          simpa [hasTrunc] using hnt

/-- C4 witness: `Lock("f", mode="w")` has the truncate flag and the
rewritten mode; a successful acquire run and a failed fail-fast run
are both truncate-safe. -/
theorem claim4_witness :
    ((Lock.init "f" ['w'] (some 5) DEFAULT_CHECK_INTERVAL false LOCK_METHOD).truncate = true ∧
      'w' ∉ (Lock.init "f" ['w'] (some 5) DEFAULT_CHECK_INTERVAL false LOCK_METHOD).mode ∧
      (Lock.init "f" ['w'] (some 5) DEFAULT_CHECK_INTERVAL false LOCK_METHOD).mode =
        replaceChar ['w'] 'w' 'a') ∧
    truncOnlyWhenHeld false
      [Ev.evOpen "f" 7, Ev.evLockAttempt 7 PrimResult.ok, Ev.evTruncate 7] = true ∧
    hasTrunc [Ev.evOpen "f" 0, Ev.evLockAttempt 0 (PrimResult.contention 3),
      Ev.evClose 0] = false := by
  refine ⟨claim4_truncate_after_lock.1 "f" ['w'] (some 5) DEFAULT_CHECK_INTERVAL
      false LOCK_METHOD (by decide), ?_, ?_⟩
  · exact claim4_truncate_after_lock.2.1
      (Lock.init "f" ['w'] (some 5) DEFAULT_CHECK_INTERVAL false LOCK_METHOD)
      { Lock.init "f" ['w'] (some 5) DEFAULT_CHECK_INTERVAL false LOCK_METHOD with fh := some 7 }
      freeEnv none none none 3 (Except.ok 7)
      [Ev.evOpen "f" 7, Ev.evLockAttempt 7 PrimResult.ok, Ev.evTruncate 7]
      (by unfold Lock.acquire
          norm_num [Lock.init, freeEnv, Lock.resolveTimeout, Lock.acquireLoop_succ])
  · exact claim4_truncate_after_lock.2.2 lockA lockA busyEnv none none (some true) 3
      (PyError.alreadyLocked (ExcArg.contention 3))
      [Ev.evOpen "f" 0, Ev.evLockAttempt 0 (PrimResult.contention 3), Ev.evClose 0]
      (by unfold Lock.acquire
          norm_num [lockA, Lock.init, busyEnv, Lock.resolveTimeout, Lock.acquireLoop_succ])

/-- The reentrancy invariant: a positive depth exactly when the
wrapped lock holds its handle. -/
def RInv (st : RLockState) : Prop :=
  0 < st.acquireCount ↔ st.base.fh.isSome = true

/-- Unfolding equation for `iterAcquire`: zero steps. -/
theorem RLock.iterAcquire_zero (env : Env) (fuel : ℕ) (st : RLockState) :
    RLock.iterAcquire env fuel 0 st = some st := rfl

/-- Unfolding equation for `iterAcquire`: one more step. -/
theorem RLock.iterAcquire_succ (env : Env) (fuel k : ℕ) (st : RLockState) :
    RLock.iterAcquire env fuel (k + 1) st =
      match RLock.acquire st env none none none fuel with
      | some (st1, Except.ok _, _) => RLock.iterAcquire env fuel k st1
      | _ => none := rfl

/-- Unfolding equation for `iterRelease`: zero steps. -/
theorem RLock.iterRelease_zero (st : RLockState) :
    RLock.iterRelease 0 st = some st := rfl

/-- Unfolding equation for `iterRelease`: one more step. -/
theorem RLock.iterRelease_succ (k : ℕ) (st : RLockState) :
    RLock.iterRelease (k + 1) st =
      match RLock.release st with
      | (st1, none, _) => RLock.iterRelease k st1
      | _ => none := rfl

/-- Helper: a reentrant `acquire` (depth already positive) returns the
held handle, bumps the depth, and performs no action at all. -/
theorem RLock.acquire_reentrant (st : RLockState) (env : Env)
    (tA cA : Option ℚ) (fA : Option Bool) (fuel : ℕ)
    (h1 : 1 ≤ st.acquireCount) :
    RLock.acquire st env tA cA fA fuel =
      some ({ st with acquireCount := st.acquireCount + 1 },
        Except.ok st.base.fh, []) := by
  unfold RLock.acquire
  rw [if_pos h1]

/-- Helper: `k` reentrant acquires on a held lock just add `k` to the
depth. -/
theorem RLock.iterAcquire_count (env : Env) (fuel k : ℕ) (st : RLockState)
    (h1 : 1 ≤ st.acquireCount) :
    RLock.iterAcquire env fuel k st =
      some { st with acquireCount := st.acquireCount + k } := by
  induction k generalizing st with
  | zero => exact RLock.iterAcquire_zero env fuel st
  | succ k ih =>
    rw [RLock.iterAcquire_succ, RLock.acquire_reentrant st env none none none fuel h1]
    have := ih { st with acquireCount := st.acquireCount + 1 } (by simp)
    simp only [this]
    have e1 : st.acquireCount + 1 + k = st.acquireCount + (k + 1) := by omega
    rw [e1]

/-- Helper: `release` at depth at least 2 only decrements. -/
theorem RLock.release_decrement (st : RLockState) (h2 : 2 ≤ st.acquireCount) :
    RLock.release st =
      ({ st with acquireCount := st.acquireCount - 1 }, none, []) := by
  unfold RLock.release
  rw [if_neg (by omega), if_neg (by omega)]

/-- Helper: `k` releases at depth at least `k + 1` just subtract `k`. -/
theorem RLock.iterRelease_count (k : ℕ) (st : RLockState)
    (hk : k + 1 ≤ st.acquireCount) :
    RLock.iterRelease k st =
      some { st with acquireCount := st.acquireCount - k } := by
  induction k generalizing st with
  | zero => exact RLock.iterRelease_zero st
  | succ k ih =>
    rw [RLock.iterRelease_succ, RLock.release_decrement st (by omega)]
    have := ih { st with acquireCount := st.acquireCount - 1 } (by simp; omega)
    simp only [this]
    have e1 : st.acquireCount - 1 - k = st.acquireCount - (k + 1) := by omega
    rw [e1]

/-- Helper: `release` at depth exactly 1 performs the real release. -/
theorem RLock.release_last (st : RLockState) (h : ℕ)
    (h1 : st.acquireCount = 1) (hfh : st.base.fh = some h) :
    RLock.release st =
      ({ base := { st.base with fh := none }, acquireCount := 0 }, none,
        [Ev.evUnlock h, Ev.evClose h]) := by
  unfold RLock.release
  rw [if_neg (by omega), if_pos h1]
  unfold Lock.release
  rw [hfh]

/-- Helper: a successful `acquire` at depth 0 sets the depth to 1 and
stores the returned handle in the wrapped lock. -/
theorem RLock.acquire_zero_ok (st st1 : RLockState) (env : Env)
    (tA cA : Option ℚ) (fA : Option Bool) (fuel : ℕ) (oh : Option ℕ)
    (evs : List Ev) (h0 : st.acquireCount = 0)
    (H : RLock.acquire st env tA cA fA fuel = some (st1, Except.ok oh, evs)) :
    st1.acquireCount = 1 ∧ ∃ h, oh = some h ∧ st1.base.fh = some h := by
  unfold RLock.acquire at H
  rw [if_neg (by omega)] at H
  cases hl : Lock.acquire st.base env tA cA fA fuel with
  | none => rw [hl] at H; exact absurd H (by simp)
  | some pr =>
    obtain ⟨b, r0, evs0⟩ := pr
    rw [hl] at H
    cases r0 with
    | error e0 =>
      simp only [Option.some.injEq, Prod.mk.injEq] at H
      exact absurd H.2.1 (by simp)
    | ok h =>
      simp only [Option.some.injEq, Prod.mk.injEq, Except.ok.injEq] at H
      refine ⟨by rw [← H.1, h0], h, H.2.1.symm, ?_⟩
      rw [← H.1]
      exact Lock.acquire_ok_fh hl

/-- C6: reentrancy bookkeeping of `RLock`.  Conjuncts: (1) an acquire
at positive depth returns the already-held handle, increments the
depth, and touches nothing (empty trace, any environment); (2)/(3) the
invariant depth greater than 0 iff the wrapped lock is held is
preserved by `acquire` and by `release`; (4) a release at depth at
least 2 only decrements; (5) from a fresh 0 to 1 acquisition that
returned handle `h`, `N - 1` further acquires reach depth `N` with the
lock still held, `N - 1` releases come back to depth 1 with the lock
STILL held, and the final release really unlocks and closes `h`. -/
theorem claim6_rlock_depth :
    (∀ (st : RLockState) (env : Env) (tA cA : Option ℚ) (fA : Option Bool)
        (fuel : ℕ), 1 ≤ st.acquireCount →
      RLock.acquire st env tA cA fA fuel =
        some ({ st with acquireCount := st.acquireCount + 1 },
          Except.ok st.base.fh, [])) ∧
    (∀ (st st1 : RLockState) (env : Env) (tA cA : Option ℚ) (fA : Option Bool)
        (fuel : ℕ) (r : Except PyError (Option ℕ)) (evs : List Ev),
      RInv st → RLock.acquire st env tA cA fA fuel = some (st1, r, evs) →
        RInv st1) ∧
    (∀ st : RLockState, RInv st → RInv (RLock.release st).1) ∧
    (∀ st : RLockState, 2 ≤ st.acquireCount →
      RLock.release st =
        ({ st with acquireCount := st.acquireCount - 1 }, none, [])) ∧
    (∀ (st st1 : RLockState) (env : Env) (fuel N h : ℕ) (evs : List Ev),
      st.acquireCount = 0 →
      RLock.acquire st env none none none fuel = some (st1, Except.ok (some h), evs) →
      1 ≤ N →
      ∃ stN, RLock.iterAcquire env fuel (N - 1) st1 = some stN ∧
        stN.acquireCount = N ∧ stN.base.fh = some h ∧
        ∃ stL, RLock.iterRelease (N - 1) stN = some stL ∧
          stL.acquireCount = 1 ∧ stL.base.fh = some h ∧
          RLock.release stL =
            ({ base := { stL.base with fh := none }, acquireCount := 0 }, none,
              [Ev.evUnlock h, Ev.evClose h])) := by
  refine ⟨RLock.acquire_reentrant, ?_, ?_, RLock.release_decrement, ?_⟩
  · intro st st1 env tA cA fA fuel r evs hinv H
    by_cases h1 : 1 ≤ st.acquireCount
    · rw [RLock.acquire_reentrant st env tA cA fA fuel h1] at H
      simp only [Option.some.injEq, Prod.mk.injEq] at H
      rw [← H.1]
      unfold RInv at hinv ⊢
      simp only []
      constructor
      · intro _; exact hinv.mp (by omega)
      · intro _; omega
    · have h0 : st.acquireCount = 0 := by omega
      unfold RLock.acquire at H
      rw [if_neg (by omega)] at H
      cases hl : Lock.acquire st.base env tA cA fA fuel with
      | none => rw [hl] at H; exact absurd H (by simp)
      | some pr =>
        obtain ⟨b, r0, evs0⟩ := pr
        rw [hl] at H
        cases r0 with
        | error e0 =>
          simp only [Option.some.injEq, Prod.mk.injEq] at H
          rw [← H.1]
          have hb : b = st.base := Lock.acquire_error_state hl
          unfold RInv at hinv ⊢
          simpa [hb] using hinv
        | ok h =>
          simp only [Option.some.injEq, Prod.mk.injEq] at H
          rw [← H.1]
          unfold RInv
          simp [Lock.acquire_ok_fh hl]
  · intro st hinv
    by_cases h0 : st.acquireCount = 0
    · unfold RLock.release
      rw [if_pos h0]
      exact hinv
    · by_cases h1 : st.acquireCount = 1
      · unfold RLock.release
        rw [if_neg h0, if_pos h1]
        unfold RInv
        cases hfh : st.base.fh with
        | none => simp [Lock.release, hfh]
        | some h => simp [Lock.release, hfh]
      · rw [RLock.release_decrement st (by omega)]
        unfold RInv at hinv ⊢
        simp only []
        constructor
        · intro _; exact hinv.mp (by omega)
        · intro _; omega
  · intro st st1 env fuel N h evs h0 H hN
    obtain ⟨hc1, h2, hsome, hfh2⟩ := RLock.acquire_zero_ok st st1 env none none none
      fuel (some h) evs h0 H
    have hfh1 : st1.base.fh = some h := by
      rw [hfh2, (Option.some.inj hsome).symm]
    refine ⟨{ st1 with acquireCount := st1.acquireCount + (N - 1) },
      RLock.iterAcquire_count env fuel (N - 1) st1 (by omega), ?_, hfh1, ?_⟩
    · show st1.acquireCount + (N - 1) = N
      omega
    refine ⟨{ st1 with acquireCount := st1.acquireCount + (N - 1) - (N - 1) },
      RLock.iterRelease_count (N - 1) _ ?_, ?_, hfh1, ?_⟩
    · show N - 1 + 1 ≤ st1.acquireCount + (N - 1)
      omega
    · show st1.acquireCount + (N - 1) - (N - 1) = 1
      omega
    · exact RLock.release_last _ h (by show st1.acquireCount + (N - 1) - (N - 1) = 1; omega) hfh1

/-- The `RLock` state holding handle 7 at depth 1. -/
def rlock1 : RLockState :=
  { base := { lockA with fh := some 7 }, acquireCount := 1 }

/-- C6 witness: a concrete `RLock` acquired from depth 0, then the
conjuncts instantiated with `N = 3`. -/
theorem claim6_witness :
    (RLock.acquire rlock1 freeEnv none none none 3 =
      some ({ rlock1 with acquireCount := 2 }, Except.ok (some 7), [])) ∧
    RInv { rlock1 with acquireCount := 2 } ∧
    RInv (RLock.release { rlock1 with acquireCount := 2 }).1 ∧
    (RLock.release { rlock1 with acquireCount := 5 } =
      ({ rlock1 with acquireCount := 4 }, none, [])) ∧
    (∃ stN, RLock.iterAcquire freeEnv 3 2 rlock1 = some stN ∧
        stN.acquireCount = 3 ∧ stN.base.fh = some 7 ∧
        ∃ stL, RLock.iterRelease 2 stN = some stL ∧
          stL.acquireCount = 1 ∧ stL.base.fh = some 7 ∧
          RLock.release stL =
            ({ base := { stL.base with fh := none }, acquireCount := 0 }, none,
              [Ev.evUnlock 7, Ev.evClose 7])) := by
  have hacq : RLock.acquire { base := lockA, acquireCount := 0 } freeEnv
      none none none 3 =
      some (rlock1, Except.ok (some 7),
        [Ev.evOpen "f" 7, Ev.evLockAttempt 7 PrimResult.ok]) := by
    unfold RLock.acquire Lock.acquire
    norm_num [rlock1, lockA, Lock.init, freeEnv, Lock.resolveTimeout,
      Lock.acquireLoop_succ]
    decide
  have hre := claim6_rlock_depth.1 rlock1 freeEnv none none none 3 (by norm_num [rlock1])
  refine ⟨hre, ?_, ?_, ?_, ?_⟩
  · exact claim6_rlock_depth.2.1 rlock1 { rlock1 with acquireCount := 2 } freeEnv
      none none none 3 (Except.ok (some 7)) []
      (by unfold RInv; norm_num [rlock1, lockA, Lock.init])
      (by rw [hre]; rfl)
  · exact claim6_rlock_depth.2.2.1 { rlock1 with acquireCount := 2 }
      (by unfold RInv; norm_num [rlock1, lockA, Lock.init])
  · exact claim6_rlock_depth.2.2.2.1 { rlock1 with acquireCount := 5 } (by norm_num [rlock1])
  · exact claim6_rlock_depth.2.2.2.2 { base := lockA, acquireCount := 0 } rlock1 freeEnv 3 3 7
      [Ev.evOpen "f" 7, Ev.evLockAttempt 7 PrimResult.ok] rfl hacq (by omega)

/-- C10: the `LockBase` context-manager wiring.  First conjunct: for
ANY object derived from `LockBase` (seen through its no-argument
`acquire` / `release` interface, as instantiated below for `Lock` and
`RLock`), once `__enter__`'s acquire succeeds, `release()` is called
on every exit of the scope — the final state and the trailing trace
events are those of `release`, whatever the body did.  Second
conjunct: `__enter__` on a `Lock` is exactly `acquire()` with every
argument absent, so all instance-configured defaults apply.  Third
conjunct: for a `Lock`, after a successful entry the scope always ends
unlocked (`fh = none`) with the handle unlocked and closed, and a body
exception is still propagated. -/
theorem claim10_scope_releases :
    (∀ (σ η α : Type) (o : LockObj σ η) (s : σ) (body : η → Except PyError α)
        (s1 : σ) (h : η) (evs : List Ev),
      o.enter s = some (s1, Except.ok h, evs) →
      withScope o s body =
        some ((o.release s1).1,
          (match (o.release s1).2.1 with
           | some e => Except.error e
           | none => body h), evs ++ (o.release s1).2.2)) ∧
    (∀ (env : Env) (fuel : ℕ) (s : LockState),
      (Lock.asLockObj env fuel).enter s = Lock.acquire s env none none none fuel) ∧
    (∀ (env : Env) (fuel : ℕ) (st st1 : LockState) (h : ℕ) (evs : List Ev)
        (α : Type) (r : Except PyError α),
      Lock.acquire st env none none none fuel = some (st1, Except.ok h, evs) →
      withScope (Lock.asLockObj env fuel) st (fun _ => r) =
        some ({ st1 with fh := none }, r,
          evs ++ [Ev.evUnlock h, Ev.evClose h])) := by
  refine ⟨?_, ?_, ?_⟩
  · intro σ η α o s body s1 h evs H
    unfold withScope
    rw [H]
  · intro env fuel s
    rfl
  · intro env fuel st st1 h evs α r H
    have hfh := Lock.acquire_ok_fh H
    have henter : (Lock.asLockObj env fuel).enter st = some (st1, Except.ok h, evs) := H
    unfold withScope
    rw [henter]
    show some ((Lock.release st1).1, _, evs ++ (Lock.release st1).2) = _
    unfold Lock.release
    rw [hfh]
    rfl

/-- C10 witness: a concrete scope on `lockA` whose body raises: the
lock is still released (unlocked state, unlock and close in the
trace) and the body error is propagated. -/
theorem claim10_witness :
    withScope (Lock.asLockObj freeEnv 3) lockA
        (fun _ => (Except.error (PyError.osError "boom") : Except PyError ℕ)) =
      some ({ lockA with fh := none }, Except.error (PyError.osError "boom"),
        [Ev.evOpen "f" 7, Ev.evLockAttempt 7 PrimResult.ok,
          Ev.evUnlock 7, Ev.evClose 7]) := by
  have H : Lock.acquire lockA freeEnv none none none 3 =
      some ({ lockA with fh := some 7 }, Except.ok 7,
        [Ev.evOpen "f" 7, Ev.evLockAttempt 7 PrimResult.ok]) := by
    unfold Lock.acquire
    norm_num [lockA, Lock.init, freeEnv, Lock.resolveTimeout, Lock.acquireLoop_succ]
    decide
  have := claim10_scope_releases.2.2 freeEnv 3 lockA { lockA with fh := some 7 } 7
    [Ev.evOpen "f" 7, Ev.evLockAttempt 7 PrimResult.ok] ℕ
    (Except.error (PyError.osError "boom")) H
  simpa using this

/-- Opened files distribute over trace concatenation. -/
theorem openedFiles_append (xs ys : List Ev) :
    openedFiles (xs ++ ys) = openedFiles xs ++ openedFiles ys :=
  List.filterMap_append xs ys _

/-- Helper: the retry loop of `Lock.acquire` opens no file. -/
theorem Lock.acquireLoop_no_open (env : Env) (tE ci : ℚ) (fwl : Bool)
    (h : ℕ) (c a : ℕ) (le : Option ℕ) (fuel : ℕ)
    (r : Except PyError Unit) (evs : List Ev)
    (H : Lock.acquireLoop env tE ci fwl h c a le fuel = some (r, evs)) :
    openedFiles evs = [] := by
  induction fuel generalizing c a le r evs with
  | zero => rw [Lock.acquireLoop_zero] at H; exact absurd H (by simp)
  | succ f ih =>
    rw [Lock.acquireLoop_succ] at H
    by_cases hc : tE > env.clock c
    · rw [if_pos hc] at H
      cases hp : env.prim a with
      | ok =>
        rw [hp] at H
        simp only [Option.some.injEq, Prod.mk.injEq] at H
        rw [← H.2]
        rfl
      | contention e =>
        simp only [hp] at H
        by_cases hf : fwl = true
        · rw [if_pos hf] at H
          simp only [Option.some.injEq, Prod.mk.injEq] at H
          rw [← H.2]
          rfl
        · rw [if_neg hf] at H
          cases hl : Lock.acquireLoop env tE ci fwl h (c + 1) (a + 1) (some e) f with
          | none => rw [hl] at H; exact absurd H (by simp)
          | some pr =>
            obtain ⟨r0, evs0⟩ := pr
            rw [hl] at H
            simp only [Option.some.injEq, Prod.mk.injEq] at H
            rw [← H.2]
            have := ih (c + 1) (a + 1) (some e) r0 evs0 hl
            show openedFiles evs0 = []
            exact this
    · rw [if_neg hc] at H
      simp only [Option.some.injEq, Prod.mk.injEq] at H
      rw [← H.2]
      rfl

/-- Helper: a `Lock.acquire` on a fresh instance opens exactly its own
file, whatever the outcome. -/
theorem Lock.acquire_opens (lk st1 : LockState) (env : Env) (lf : ℕ)
    (r : Except PyError ℕ) (evs : List Ev) (hfh : lk.fh = none)
    (H : Lock.acquire lk env none none none lf = some (st1, r, evs)) :
    openedFiles evs = [lk.filename] := by
  unfold Lock.acquire at H
  rw [hfh] at H
  cases hl : Lock.acquireLoop env (env.clock 0 + Lock.resolveTimeout none lk.timeout)
      (Option.getD none lk.checkInterval) (Option.getD none lk.failWhenLocked)
      env.handle 1 0 none lf with
  | none => rw [hl] at H; exact absurd H (by simp)
  | some pr =>
    obtain ⟨r0, evs0⟩ := pr
    have h0 : openedFiles evs0 = [] := Lock.acquireLoop_no_open _ _ _ _ _ 1 0 none lf _ _ hl
    rw [hl] at H
    cases r0 with
    | error e0 =>
      simp only [Option.some.injEq, Prod.mk.injEq] at H
      rw [← H.2.2]
      show lk.filename :: openedFiles evs0 = [lk.filename]
      rw [h0]
    | ok u =>
      simp only [Option.some.injEq, Prod.mk.injEq] at H
      rw [← H.2.2]
      rw [openedFiles_append]
      show (lk.filename :: openedFiles evs0) ++
        openedFiles (if lk.truncate = true then [Ev.evTruncate env.handle] else []) = _
      rw [h0]
      cases lk.truncate with
      | false => rfl
      | true => rfl

/-- Helper: `try_lock` walks the candidate list in list order, so the
files it opens are exactly an initial segment of the candidates. -/
theorem Sem.try_lock_opens (envs : ℕ → Env) (lf : ℕ) :
    ∀ (l : List String) (s : Sem) (i : ℕ)
      (res : Sem × Except PyError Bool × List Ev),
      Sem.try_lock s envs lf l i = some res →
      ∃ k, openedFiles res.2.2 = List.take k l := by
  intro l
  induction l with
  | nil =>
    intro s i res H
    rw [Sem.try_lock_nil] at H
    simp only [Option.some.injEq] at H
    exact ⟨0, by rw [← H]; rfl⟩
  | cons f rest ih =>
    intro s i res H
    rw [Sem.try_lock_cons] at H
    cases hacq : Lock.acquire (Lock.init f ['a'] (some DEFAULT_TIMEOUT)
        DEFAULT_CHECK_INTERVAL true LOCK_METHOD) (envs i) none none none lf with
    | none => rw [hacq] at H; exact absurd H (by simp)
    | some pr =>
      obtain ⟨lk1, r0, evs0⟩ := pr
      have hopen : openedFiles evs0 = [f] := by
        have := Lock.acquire_opens _ lk1 (envs i) lf r0 evs0 rfl hacq
        simpa [Lock.init] using this
      rw [hacq] at H
      cases r0 with
      | ok b =>
        simp only [Option.some.injEq] at H
        refine ⟨1, ?_⟩
        rw [← H]
        show openedFiles evs0 = List.take 1 (f :: rest)
        rw [hopen]
        rfl
      | error e0 =>
        cases e0 with
        | alreadyLocked a0 =>
          simp only [] at H
          cases hrec : Sem.try_lock { s with lock := some lk1 } envs lf rest (i + 1) with
          | none => rw [hrec] at H; exact absurd H (by simp)
          | some pr2 =>
            obtain ⟨s1, r1, evs1⟩ := pr2
            rw [hrec] at H
            simp only [Option.some.injEq] at H
            obtain ⟨k, hk⟩ := ih _ _ _ hrec
            refine ⟨k + 1, ?_⟩
            rw [← H]
            show openedFiles (evs0 ++ evs1) = List.take (k + 1) (f :: rest)
            rw [openedFiles_append, hopen, hk]
            rfl
        | lockException a0 =>
          simp only [Option.some.injEq] at H
          exact ⟨1, by rw [← H]; show openedFiles evs0 = _; rw [hopen]; rfl⟩
        | assertionError m =>
          simp only [Option.some.injEq] at H
          exact ⟨1, by rw [← H]; show openedFiles evs0 = _; rw [hopen]; rfl⟩
        | osError m =>
          simp only [Option.some.injEq] at H
          exact ⟨1, by rw [← H]; show openedFiles evs0 = _; rw [hopen]; rfl⟩

/-- Helper: every polling pass opens an initial segment of the SAME
candidate list handed to the loop. -/
theorem Sem.acquireLoop_opens (clock : ℕ → ℚ) (passEnv : ℕ → ℕ → Env)
    (lf : ℕ) (filenames : List String) (tE ci : ℚ) :
    ∀ (fuel : ℕ) (s : Sem) (p c : ℕ) (res : Sem × Except PyError Unit × List Ev),
      Sem.acquireLoop clock passEnv lf filenames tE ci s p c fuel = some res →
      ∃ ns : List ℕ,
        openedFiles res.2.2 =
          (ns.map (fun k => List.take k filenames)).flatten := by
  intro fuel
  induction fuel with
  | zero =>
    intro s p c res H
    rw [Sem.semLoop_zero] at H
    exact absurd H (by simp)
  | succ f ih =>
    intro s p c res H
    rw [Sem.semLoop_succ] at H
    by_cases hc : tE > clock c
    · rw [if_pos hc] at H
      cases htl : Sem.try_lock s (passEnv p) lf filenames 0 with
      | none => rw [htl] at H; exact absurd H (by simp)
      | some pr =>
        obtain ⟨s1, r1, evs⟩ := pr
        obtain ⟨k, hk⟩ := Sem.try_lock_opens (passEnv p) lf filenames s 0 _ htl
        rw [htl] at H
        cases r1 with
        | error e =>
          simp only [Option.some.injEq] at H
          refine ⟨[k], ?_⟩
          rw [← H]
          show openedFiles evs = List.take k filenames ++ []
          rw [hk, List.append_nil]
        | ok b =>
          cases b with
          | true =>
            simp only [Option.some.injEq] at H
            refine ⟨[k], ?_⟩
            rw [← H]
            show openedFiles evs = List.take k filenames ++ []
            rw [hk, List.append_nil]
          | false =>
            simp only [] at H
            cases hrec : Sem.acquireLoop clock passEnv lf filenames tE ci s1
                (p + 1) (c + 1) f with
            | none => rw [hrec] at H; exact absurd H (by simp)
            | some pr2 =>
              obtain ⟨s2, r2, evs1⟩ := pr2
              rw [hrec] at H
              simp only [Option.some.injEq] at H
              obtain ⟨ns, hns⟩ := ih s1 (p + 1) (c + 1) _ hrec
              refine ⟨k :: ns, ?_⟩
              rw [← H]
              show openedFiles (evs ++ (Ev.evSleep ci :: evs1)) = _
              rw [openedFiles_append, hk]
              have : openedFiles (Ev.evSleep ci :: evs1) = openedFiles evs1 := rfl
              rw [this, hns]
              rfl
    · rw [if_neg hc] at H
      simp only [Option.some.injEq] at H
      exact ⟨[], by rw [← H]; rfl⟩

/-- C2 (amended): `BoundedSemaphore.acquire` never consults the random
source: it builds the candidate list ONCE with `get_filenames` (fixed
index order), and every pass — the initial one and every retry pass —
walks an initial segment of that same fixed list in list order.
`get_random_filenames` exists but is not called by `acquire`.  First
conjunct: the files a `try_lock` pass opens are an initial segment of
the candidate list it is given, in order.  Second conjunct: the files
a whole `acquire` opens are a concatenation of initial segments of the
FIXED list `get_filenames` — one segment per pass, the same list every
pass, independent of any permutation. -/
theorem claim2_fixed_order :
    (∀ (envs : ℕ → Env) (lf : ℕ) (l : List String) (s : Sem) (i : ℕ)
        (res : Sem × Except PyError Bool × List Ev),
      Sem.try_lock s envs lf l i = some res →
      ∃ k, openedFiles res.2.2 = List.take k l) ∧
    (∀ (s : Sem) (clock : ℕ → ℚ) (passEnv : ℕ → ℕ → Env)
        (tA ciA : Option ℚ) (lf lpf : ℕ)
        (res : Sem × Except PyError Unit × List Ev),
      Sem.acquire s clock passEnv tA ciA lf lpf = some res →
      ∃ ns : List ℕ,
        openedFiles res.2.2 =
          (ns.map (fun k => List.take k s.get_filenames)).flatten) := by
  refine ⟨fun envs lf l s i res H => Sem.try_lock_opens envs lf l s i res H, ?_⟩
  intro s clock passEnv tA ciA lf lpf res H
  unfold Sem.acquire at H
  cases hl : s.lock with
  | some lk =>
    rw [hl] at H
    simp only [Option.some.injEq] at H
    exact ⟨[], by rw [← H]; rfl⟩
  | none =>
    rw [hl] at H
    simp only [] at H
    cases htl : Sem.try_lock s (passEnv 0) lf s.get_filenames 0 with
    | none => rw [htl] at H; exact absurd H (by simp)
    | some pr =>
      obtain ⟨s1, r1, evs⟩ := pr
      obtain ⟨k, hk⟩ := Sem.try_lock_opens (passEnv 0) lf s.get_filenames s 0 _ htl
      rw [htl] at H
      cases r1 with
      | error e =>
        simp only [Option.some.injEq] at H
        refine ⟨[k], ?_⟩
        rw [← H]
        show openedFiles evs = List.take k s.get_filenames ++ []
        rw [hk, List.append_nil]
      | ok b =>
        cases b with
        | true =>
          simp only [Option.some.injEq] at H
          refine ⟨[k], ?_⟩
          rw [← H]
          show openedFiles evs = List.take k s.get_filenames ++ []
          rw [hk, List.append_nil]
        | false =>
          simp only [] at H
          by_cases ht : Lock.resolveTimeout tA s.timeout = 0
          · rw [if_pos ht] at H
            simp only [Option.some.injEq] at H
            refine ⟨[k], ?_⟩
            rw [← H]
            show openedFiles evs = List.take k s.get_filenames ++ []
            rw [hk, List.append_nil]
          · rw [if_neg ht] at H
            cases hlp : Sem.acquireLoop clock passEnv lf s.get_filenames
                (clock 0 + Lock.resolveTimeout tA s.timeout)
                (ciA.getD s.checkInterval) s1 1 1 lpf with
            | none => rw [hlp] at H; exact absurd H (by simp)
            | some pr2 =>
              obtain ⟨s2, r2, evs1⟩ := pr2
              rw [hlp] at H
              simp only [Option.some.injEq] at H
              obtain ⟨ns, hns⟩ := Sem.acquireLoop_opens clock passEnv lf
                s.get_filenames _ _ lpf s1 1 1 _ hlp
              refine ⟨k :: ns, ?_⟩
              rw [← H]
              show openedFiles (evs ++ evs1) = _
              rw [openedFiles_append, hk, hns]
              rfl

/-- C2 counterexample: with a random source that reverses, the fresh
random permutation of the two candidates is `[01, 00]`, yet a full
`acquire` run (fail and retry: the contended two-pass run with
timeout 2) opens `[00, 01, 00, 01]` — the fixed index order, the SAME
order on the retry pass, not the permutation. -/
theorem claim2_counterexample :
    (Sem.acquire semA clkN passBusy (some 2) none 3 4).map
        (fun r => openedFiles r.2.2) =
      some ["bounded_semaphore.00.lock", "bounded_semaphore.01.lock",
        "bounded_semaphore.00.lock", "bounded_semaphore.01.lock"] ∧
    Sem.get_random_filenames List.reverse semA =
      ["bounded_semaphore.01.lock", "bounded_semaphore.00.lock"] ∧
    (["bounded_semaphore.00.lock", "bounded_semaphore.01.lock"] ≠
      ["bounded_semaphore.01.lock", "bounded_semaphore.00.lock"]) := by
  refine ⟨?_, by decide, by decide⟩
  have hrun : Sem.acquire semA clkN passBusy (some 2) none 3 4 =
      some ({ semA with lock := some (permitLock (Sem.get_filename semA 1)) },
        Except.error (PyError.alreadyLocked ExcArg.noArg),
        [Ev.evOpen (Sem.get_filename semA 0) 0,
          Ev.evLockAttempt 0 (PrimResult.contention 3), Ev.evClose 0,
          Ev.evOpen (Sem.get_filename semA 1) 0,
          Ev.evLockAttempt 0 (PrimResult.contention 3), Ev.evClose 0,
          Ev.evOpen (Sem.get_filename semA 0) 0,
          Ev.evLockAttempt 0 (PrimResult.contention 3), Ev.evClose 0,
          Ev.evOpen (Sem.get_filename semA 1) 0,
          Ev.evLockAttempt 0 (PrimResult.contention 3), Ev.evClose 0,
          Ev.evSleep DEFAULT_CHECK_INTERVAL]) := by
    unfold Sem.acquire
    norm_num [semA, Sem.get_filenames, Sem.try_lock_cons, Sem.try_lock_nil,
      Sem.semLoop_succ, permitLock, Lock.acquire, Lock.init,
      Lock.resolveTimeout, Lock.acquireLoop_succ, busyEnv, passBusy, clkN,
      DEFAULT_TIMEOUT, List.range_succ]
  rw [hrun]
  rfl

/-- C2 witness: the amended theorem instantiated on the concrete
contended run: the single pass opens `take 2` of the fixed candidate
list, and the full run is a concatenation of initial segments of it. -/
theorem claim2_witness :
    (∃ k, openedFiles
        [Ev.evOpen (Sem.get_filename semA 0) 0,
          Ev.evLockAttempt 0 (PrimResult.contention 3), Ev.evClose 0,
          Ev.evOpen (Sem.get_filename semA 1) 0,
          Ev.evLockAttempt 0 (PrimResult.contention 3), Ev.evClose 0] =
      List.take k semA.get_filenames) ∧
    (∃ ns : List ℕ,
      openedFiles
        [Ev.evOpen (Sem.get_filename semA 0) 0,
          Ev.evLockAttempt 0 (PrimResult.contention 3), Ev.evClose 0,
          Ev.evOpen (Sem.get_filename semA 1) 0,
          Ev.evLockAttempt 0 (PrimResult.contention 3), Ev.evClose 0] =
      (ns.map (fun k => List.take k semA.get_filenames)).flatten) := by
  have htl : Sem.try_lock semA (passBusy 0) 3 semA.get_filenames 0 =
      some ({ semA with lock := some (permitLock (Sem.get_filename semA 1)) },
        Except.ok false,
        [Ev.evOpen (Sem.get_filename semA 0) 0,
          Ev.evLockAttempt 0 (PrimResult.contention 3), Ev.evClose 0,
          Ev.evOpen (Sem.get_filename semA 1) 0,
          Ev.evLockAttempt 0 (PrimResult.contention 3), Ev.evClose 0]) := by
    norm_num [semA, Sem.get_filenames, Sem.try_lock_cons, Sem.try_lock_nil,
      permitLock, Lock.acquire, Lock.init, Lock.resolveTimeout,
      Lock.acquireLoop_succ, busyEnv, passBusy, DEFAULT_TIMEOUT, List.range_succ]
  have hacq : Sem.acquire semA clkN passBusy (some 0) none 3 4 =
      some ({ semA with lock := some (permitLock (Sem.get_filename semA 1)) },
        Except.error (PyError.alreadyLocked ExcArg.noArg),
        [Ev.evOpen (Sem.get_filename semA 0) 0,
          Ev.evLockAttempt 0 (PrimResult.contention 3), Ev.evClose 0,
          Ev.evOpen (Sem.get_filename semA 1) 0,
          Ev.evLockAttempt 0 (PrimResult.contention 3), Ev.evClose 0]) := by
    unfold Sem.acquire
    norm_num [semA, Sem.get_filenames, Sem.try_lock_cons, Sem.try_lock_nil,
      permitLock, Lock.acquire, Lock.init, Lock.resolveTimeout,
      Lock.acquireLoop_succ, busyEnv, passBusy, clkN, DEFAULT_TIMEOUT,
      List.range_succ]
  exact ⟨claim2_fixed_order.1 (passBusy 0) 3 semA.get_filenames semA 0 _ htl,
    claim2_fixed_order.2 semA clkN passBusy (some 0) none 3 4 _ hacq⟩

/-- C3 (code bug): after a `BoundedSemaphore.acquire` that fails with
"semaphore full" (`AlreadyLocked`), the instance still retains the
LAST failed `Lock` in `self.lock` (because `try_lock` assigns
`self.lock` BEFORE attempting to acquire it), so a second `acquire` on
the same instance trips `assert not self.lock` and fails with the
`AssertionError` message "Already locked" without trying anything —
the instance is treated as already holding a permit although it holds
none. -/
theorem claim3_stale_lock_after_failure :
    (Sem.acquire semA clkN passBusy (some 0) none 3 4).map
        (fun r => (r.2.1, r.1.lock.isSome)) =
      some (Except.error (PyError.alreadyLocked ExcArg.noArg), true) ∧
    ((Sem.acquire semA clkN passBusy (some 0) none 3 4).bind
        (fun r => Sem.acquire r.1 clkN passBusy (some 0) none 3 4)).map
        (fun r => (r.2.1, r.2.2)) =
      some (Except.error (PyError.assertionError "Already locked"),
        ([] : List Ev)) := by
  have hacq : Sem.acquire semA clkN passBusy (some 0) none 3 4 =
      some ({ semA with lock := some (permitLock (Sem.get_filename semA 1)) },
        Except.error (PyError.alreadyLocked ExcArg.noArg),
        [Ev.evOpen (Sem.get_filename semA 0) 0,
          Ev.evLockAttempt 0 (PrimResult.contention 3), Ev.evClose 0,
          Ev.evOpen (Sem.get_filename semA 1) 0,
          Ev.evLockAttempt 0 (PrimResult.contention 3), Ev.evClose 0]) := by
    unfold Sem.acquire
    norm_num [semA, Sem.get_filenames, Sem.try_lock_cons, Sem.try_lock_nil,
      permitLock, Lock.acquire, Lock.init, Lock.resolveTimeout,
      Lock.acquireLoop_succ, busyEnv, passBusy, clkN, DEFAULT_TIMEOUT,
      List.range_succ]
  rw [hacq]
  exact ⟨rfl, rfl⟩

/-- Setting a path makes it hold exactly that content. -/
theorem FS.lookup_set_self (fs : FS) (p : String) (c : List ℕ) :
    (fs.set p c).lookup p = some c := by
  unfold FS.set FS.lookup
  rw [List.find?_cons_of_pos _ (by simp)]
  rfl

/-- Removing one path leaves the others untouched. -/
theorem FS.lookup_remove_ne (fs : FS) (p q : String) (h : q ≠ p) :
    (fs.remove p).lookup q = fs.lookup q := by
  unfold FS.remove FS.lookup
  induction fs with
  | nil => rfl
  | cons x rest ih =>
    by_cases hx : x.1 = p
    · rw [List.filter_cons_of_neg (by simp [hx])]
      rw [ih]
      rw [List.find?_cons_of_neg _ (by simp; intro hq; exact absurd (hx ▸ hq) h.symm)]
    · rw [List.filter_cons_of_pos (by simp [hx])]
      by_cases hq : x.1 = q
      · rw [List.find?_cons_of_pos _ (by simp [hq]),
          List.find?_cons_of_pos _ (by simp [hq])]
      · rw [List.find?_cons_of_neg _ (by simp [hq]),
          List.find?_cons_of_neg _ (by simp [hq])]
        exact ih

/-- After removing a path it no longer exists. -/
theorem FS.pathExists_remove_self (fs : FS) (p : String) :
    (fs.remove p).pathExists p = false := by
  unfold FS.remove FS.pathExists FS.lookup
  induction fs with
  | nil => rfl
  | cons x rest ih =>
    by_cases hx : x.1 = p
    · rw [List.filter_cons_of_neg (by simp [hx])]
      exact ih
    · rw [List.filter_cons_of_pos (by simp [hx]),
        List.find?_cons_of_neg _ (by simp [hx])]
      exact ih

/-- C8 (amended): behaviors of `open_atomic`.  First conjunct: a
target path that already exists fails the `assert` precondition and
nothing is touched.  Second conjunct: after a successful scoped write
the target holds exactly the written bytes, no temp artifact remains,
and the writer reports success.  Third conjunct: when the RENAME step
fails, the `finally` clause removes the temp file (best-effort,
swallowing removal errors) and the rename error propagates.  A failure
at the scope body or at flush/fsync/close, by contrast, leaves the
temp file in place (see the counterexample): only the rename is
wrapped in `try/finally`. -/
theorem claim8_atomic_write :
    (∀ (fs : FS) (fn tmp : String) (body : BodyRun) (se : Option PyError)
        (rok : Bool),
      fs.pathExists fn = true →
      open_atomic fs fn tmp body se rok =
        (fs, Except.error (PyError.assertionError "exists"))) ∧
    (∀ (fs : FS) (fn tmp : String) (w : List ℕ),
      fs.pathExists fn = false → tmp ≠ fn →
      (open_atomic fs fn tmp { written := w, raised := none } none true).1.lookup fn =
          some w ∧
        (open_atomic fs fn tmp { written := w, raised := none } none true).1.pathExists
          tmp = false ∧
        (open_atomic fs fn tmp { written := w, raised := none } none true).2 =
          Except.ok ()) ∧
    (∀ (fs : FS) (fn tmp : String) (w : List ℕ),
      fs.pathExists fn = false →
      (open_atomic fs fn tmp { written := w, raised := none } none false).1.pathExists
          tmp = false ∧
        (open_atomic fs fn tmp { written := w, raised := none } none false).2 =
          Except.error (PyError.osError "rename")) := by
  refine ⟨?_, ?_, ?_⟩
  · intro fs fn tmp body se rok hex
    unfold open_atomic
    rw [if_pos hex]
  · intro fs fn tmp w hex hne
    unfold open_atomic
    rw [if_neg (by rw [hex]; exact Bool.false_ne_true)]
    refine ⟨?_, ?_, rfl⟩
    · show ((((fs.set tmp w).remove tmp).set fn w).remove tmp).lookup fn = some w
      rw [FS.lookup_remove_ne _ tmp fn (fun hq => hne hq.symm), FS.lookup_set_self]
    · show ((((fs.set tmp w).remove tmp).set fn w).remove tmp).pathExists tmp = false
      exact FS.pathExists_remove_self _ tmp
  · intro fs fn tmp w hex
    unfold open_atomic
    rw [if_neg (by rw [hex]; exact Bool.false_ne_true)]
    exact ⟨FS.pathExists_remove_self _ tmp, rfl⟩

/-- C8 counterexample: the scope body raises after the temp file was
created; the exception propagates from the `yield` with NO cleanup —
the temp file is still present afterwards, contradicting "if any step
after temp-file creation fails, the temp file is removed". -/
theorem claim8_counterexample :
    (open_atomic [] "f" "t" { written := [1], raised := some (PyError.osError "boom") }
        none true).2 = Except.error (PyError.osError "boom") ∧
    (open_atomic [] "f" "t" { written := [1], raised := some (PyError.osError "boom") }
        none true).1.pathExists "t" = true :=
  ⟨rfl, rfl⟩

/-- C8 witness: the three amended conjuncts at concrete inputs: an
existing target is refused; a successful write leaves exactly the
bytes and no temp file; a failed rename removes the temp file. -/
theorem claim8_witness :
    open_atomic [("f", [9])] "f" "t" { written := [1], raised := none } none true =
      ([("f", [9])], Except.error (PyError.assertionError "exists")) ∧
    ((open_atomic [] "f" "t" { written := [1, 2], raised := none } none true).1.lookup "f" =
        some [1, 2] ∧
      (open_atomic [] "f" "t" { written := [1, 2], raised := none } none true).1.pathExists
        "t" = false ∧
      (open_atomic [] "f" "t" { written := [1, 2], raised := none } none true).2 =
        Except.ok ()) ∧
    ((open_atomic [] "f" "t" { written := [1], raised := none } none false).1.pathExists
        "t" = false ∧
      (open_atomic [] "f" "t" { written := [1], raised := none } none false).2 =
        Except.error (PyError.osError "rename")) :=
  ⟨claim8_atomic_write.1 [("f", [9])] "f" "t" { written := [1], raised := none }
      none true rfl,
    claim8_atomic_write.2.1 [] "f" "t" [1, 2] rfl (by decide),
    claim8_atomic_write.2.2 [] "f" "t" [1] rfl⟩

/-- C7: `RLock.release` at depth 0 fails with the
"Cannot release more times than acquired" programming-misuse error
(realised in the source as `LockException` carrying that message); it
is raised before any mutation, so depth and the held handle are
unchanged, and no retry or primitive action occurs (empty trace). -/
theorem claim7_release_at_zero (st : RLockState) (h0 : st.acquireCount = 0) :
    RLock.release st =
      (st, some (PyError.lockException
        (ExcArg.msg "Cannot release more times than acquired")), []) := by
  unfold RLock.release
  rw [if_pos h0]

/-- C7 witness: a freshly constructed `RLock` released once. -/
theorem claim7_witness :
    RLock.release (RLock.init "f" ['a'] (some 5) DEFAULT_CHECK_INTERVAL false LOCK_METHOD) =
      (RLock.init "f" ['a'] (some 5) DEFAULT_CHECK_INTERVAL false LOCK_METHOD,
        some (PyError.lockException
          (ExcArg.msg "Cannot release more times than acquired")), []) :=
  claim7_release_at_zero _ rfl

/-- C9: a successful `acquire` immediately followed by `release`
leaves the instance unlocked (`fh = none`) and the backing handle is
unlocked then closed; and `release` on an unlocked instance is a
no-op returning the state unchanged with no actions, so it is safe to
call it any number of times. -/
theorem claim9_acquire_release :
    (∀ (st st1 : LockState) (env : Env) (tA cA : Option ℚ) (fA : Option Bool)
        (fuel h : ℕ) (evs : List Ev),
      Lock.acquire st env tA cA fA fuel = some (st1, Except.ok h, evs) →
        (Lock.release st1).1.fh = none ∧
        (Lock.release st1).2 = [Ev.evUnlock h, Ev.evClose h]) ∧
    (∀ st2 : LockState, st2.fh = none → Lock.release st2 = (st2, [])) := by
  constructor
  · intro st st1 env tA cA fA fuel h evs H
    have hfh := Lock.acquire_ok_fh H
    unfold Lock.release
    rw [hfh]
    exact ⟨rfl, rfl⟩
  · intro st2 h2
    unfold Lock.release
    rw [h2]

/-- C9 witness: a concrete successful acquire on `lockA`, then the
release facts, and the no-op release on the fresh instance. -/
theorem claim9_witness :
    ((Lock.release { lockA with fh := some 7 }).1.fh = none ∧
      (Lock.release { lockA with fh := some 7 }).2 = [Ev.evUnlock 7, Ev.evClose 7]) ∧
    Lock.release lockA = (lockA, []) :=
  ⟨claim9_acquire_release.1 lockA { lockA with fh := some 7 } freeEnv none none none 3 7
      [Ev.evOpen "f" 7, Ev.evLockAttempt 7 PrimResult.ok]
      (by unfold Lock.acquire
          norm_num [lockA, Lock.init, freeEnv, Lock.resolveTimeout, Lock.acquireLoop_succ]
          decide),
    claim9_acquire_release.2 lockA rfl⟩

end Portalocker
